import Mathlib

/-!
Verification of the background download task manager of `universal_media_mcp`
(`src/universal_media_mcp/async_downloads.py` and its `server.py` entry points).

The Python module is shallowly embedded: pure helpers become Lean functions,
the mutable `DownloadTask` record becomes an explicit state record, and the
interleaving of the public operations (`cancel_download`) with the worker
thread (`_run_task`, the progress hook, the runner outcome) becomes a small
step relation driven by event traces.  Byte counts are natural numbers,
Python floats are rationals (every operation involved is exact arithmetic
followed by clamping, so the clamp-determined facts proved here agree with
the float code), and the filesystem is a finite association of paths to
byte sizes.
-/

namespace UMM

/-- Model of Python `str.isdigit` (ASCII digits; nonempty). -/
def py_isdigit (s : String) : Bool :=
  !s.isEmpty && s.data.all Char.isDigit

/-- Model of Python `str.lower`. -/
def py_lower (s : String) : String :=
  String.mk (s.data.map Char.toLower)

/-- Model of Python `str.strip` (no argument: strip whitespace on both ends). -/
def py_strip (s : String) : String :=
  String.mk
    (((s.data.dropWhile Char.isWhitespace).reverse.dropWhile Char.isWhitespace).reverse)

/-- Final path component, as `pathlib.PurePath.name` (portion after the last slash). -/
def py_name (p : String) : String :=
  String.mk ((p.data.reverse.takeWhile (fun c => c ≠ '/')).reverse)

/-- Index of the last occurrence of a dot in a character list. -/
def rfind_dot : List Char → Option Nat
  | [] => none
  | c :: cs =>
    match rfind_dot cs with
    | some i => some (i + 1)
    | none => if c = '.' then some 0 else none

/-- Model of `pathlib.PurePath.suffix`: the extension of the final component,
from its last dot, empty when the dot is leading, trailing, or absent. -/
def py_suffix (p : String) : String :=
  let name := (py_name p).data
  match rfind_dot name with
  | none => ""
  | some i => if 0 < i ∧ i < name.length - 1 then String.mk (name.drop i) else ""

/-- The filesystem as seen by the selection heuristic: existing paths with their byte sizes. -/
abbrev FileSys := List (String × Nat)

/-- Model of `Path.exists`. -/
def path_exists (fs : FileSys) (p : String) : Bool :=
  (fs.lookup p).isSome

/-- Model of `Path.stat().st_size` (meaningful only on existing paths). -/
def stat_size (fs : FileSys) (p : String) : Nat :=
  (fs.lookup p).getD 0

/-- Candidate filter of `_choose_primary_file`: drop `.part` files and
paths that no longer exist on disk. -/
def is_salvage_candidate (fs : FileSys) (f : String) : Bool :=
  py_suffix f ≠ ".part" && path_exists fs f

/-- Python `max(files, key=stat_size)`: the first element of maximal size
(`none` on the empty list). -/
def max_by_size (fs : FileSys) : List String → Option String
  | [] => none
  | f :: rest =>
    match max_by_size fs rest with
    | none => some f
    | some m => if stat_size fs f < stat_size fs m then some m else some f

/-- `AsyncDownloadManager._choose_primary_file`: drop partial/missing paths;
prefer the largest `.mp4` (case-insensitive extension), else the largest
remaining candidate. -/
def choose_primary_file (fs : FileSys) (downloaded_files : List String) : Option String :=
  let candidates := downloaded_files.filter (is_salvage_candidate fs)
  if candidates.isEmpty then
    none
  else
    let mp4_candidates := candidates.filter (fun f => py_lower (py_suffix f) == ".mp4")
    match max_by_size fs mp4_candidates with
    | some primary => some primary
    | none => max_by_size fs candidates

/-- Result-selection heuristic as the specification words it (spec section 4.4):
identical shape, but the preferred container suffix depends on the job's
media kind and is passed in, instead of the source's fixed `.mp4`. -/
def spec_choose_primary (fs : FileSys) (preferred_suffix : String)
    (files : List String) : Option String :=
  let remaining := files.filter (is_salvage_candidate fs)
  let preferred := remaining.filter (fun f => py_lower (py_suffix f) == preferred_suffix)
  match max_by_size fs preferred with
  | some primary => some primary
  | none => max_by_size fs remaining

/-- `AsyncDownloadManager._best_effort_primary_file`: choose a salvage
candidate among the task's recorded files and stat its size. -/
def best_effort_primary_file (fs : FileSys) (files : List String) :
    Option String × Option Nat :=
  match choose_primary_file fs files with
  | none => (none, none)
  | some primary => (some primary, fs.lookup primary)

/-- A yt-dlp progress-hook payload, with the numeric fields the code reads.
Absent or non-numeric entries are `none`. -/
structure ProgressPayload where
  status : String
  downloaded_bytes : Option ℚ
  total_bytes : Option ℚ
  total_bytes_estimate : Option ℚ
deriving DecidableEq

/-- `extract_progress_percent`: percent from a `downloading` payload with
usable byte counts, clamped to `[0, 100]`; `none` otherwise.  The Python
`total_bytes or total_bytes_estimate` makes a zero total fall back to the
estimate. -/
def extract_progress_percent (p : ProgressPayload) : Option ℚ :=
  if p.status ≠ "downloading" then none
  else
    let total :=
      match p.total_bytes with
      | some t => if t = 0 then p.total_bytes_estimate else some t
      | none => p.total_bytes_estimate
    match p.downloaded_bytes, total with
    | some d, some t =>
      if t ≤ 0 then none
      else
        let percent := d / t * 100
        if percent < 0 then some 0
        else if 100 < percent then some 100
        else some percent
    | _, _ => none

/-- The stored statuses the three terminal-state checks in the source test for. -/
def terminal_statuses : List String := ["completed", "failed", "canceled"]

/-- Every status string the manager ever stores in a task record. -/
def stored_status_strings : List String :=
  ["pending", "downloading", "completed", "failed", "canceled"]

/-- Mutable state of one `DownloadTask` together with the worker-thread
bookkeeping the manager consults (`thread.is_alive`, one-shot worker). -/
structure TaskState where
  status : String
  progress : ℚ
  file_path : Option String
  file_size : Option Nat
  error : Option String
  warning : Option String
  completed_at : Option Nat
  cancel_event : Bool
  thread_started : Bool
  worker_begun : Bool
  worker_ended : Bool
  downloaded_files : List String
deriving DecidableEq

/-- `thread.is_alive()`: the worker thread is live from `start()` until
`_run_task` returns (its final registry update is its last action). -/
def thread_alive (s : TaskState) : Bool :=
  s.thread_started && !s.worker_ended

/-- The keyword arguments of `_update_task`; `none` is an absent argument. -/
structure TaskUpdate where
  status : Option String
  progress : Option ℚ
  file_path : Option String
  file_size : Option Nat
  error : Option String
  warning : Option String
  completed_at : Option Nat
deriving DecidableEq

/-- `AsyncDownloadManager._update_task`: each field is written only when the
corresponding argument is not `None`. -/
def update_task (u : TaskUpdate) (t : TaskState) : TaskState :=
  let t1 := match u.status with
    | some v => { t with status := v }
    | none => t
  let t2 := match u.progress with
    | some v => { t1 with progress := v }
    | none => t1
  let t3 := match u.file_path with
    | some v => { t2 with file_path := some v }
    | none => t2
  let t4 := match u.file_size with
    | some v => { t3 with file_size := some v }
    | none => t3
  let t5 := match u.error with
    | some v => { t4 with error := some v }
    | none => t4
  let t6 := match u.warning with
    | some v => { t5 with warning := some v }
    | none => t5
  match u.completed_at with
  | some v => { t6 with completed_at := some v }
  | none => t6

/-- Response of `cancel_download` (the `task_id` echo is omitted; a missing
`error` key is `none`). -/
structure CancelResponse where
  status : String
  error : Option String
deriving DecidableEq

/-- `AsyncDownloadManager.cancel_download` acting on a known task: terminal
tasks are untouched and echoed back; otherwise the cancel event is set and a
task with no live thread is finalized to `canceled` on the spot. -/
def cancel_download (now : Nat) (s : TaskState) : TaskState × CancelResponse :=
  if terminal_statuses.contains s.status then
    (s, { status := s.status, error := none })
  else
    let s1 := { s with cancel_event := true }
    if thread_alive s1 then
      (s1, { status := "cancel_requested", error := none })
    else
      ({ s1 with
          status := "canceled"
          error := some "Canceled."
          completed_at := some now },
        { status := "cancel_requested", error := none })

/-- Effect of one progress-hook invocation (`_build_progress_hook`) on the
task record.  When cancellation was requested the hook raises instead of
updating, leaving the record unchanged. -/
def progress_hook (p : ProgressPayload) (s : TaskState) : TaskState :=
  if s.cancel_event then s
  else
    match extract_progress_percent p with
    | none =>
      if p.status = "finished" then
        update_task ⟨none, some 99, none, none, none, none, none⟩ s
      else s
    | some percent =>
      update_task ⟨none, some (min 99 percent), none, none, none, none, none⟩ s

/-- Outcome of the download runner call inside `_run_task`. -/
inductive RunOutcome where
  | ok (path : Option String) (size : Option Nat)
  | cancelled (msg : String)
  | failure (msg : String)
deriving DecidableEq

/-- The `try/except` tail of `_run_task`: classify the runner outcome and
write the terminal update, salvaging a side file on a non-cancellation
fault. -/
def run_task_finish (fs : FileSys) (now : Nat) (o : RunOutcome) (s : TaskState) :
    TaskState :=
  match o with
  | .cancelled msg =>
    update_task
      ⟨some "canceled", none, none, none,
        some (if msg = "" then "Canceled." else msg), none, some now⟩ s
  | .ok path size =>
    update_task ⟨some "completed", some 100, path, size, none, none, some now⟩ s
  | .failure msg =>
    match best_effort_primary_file fs s.downloaded_files with
    | (some fp, fsz) =>
      update_task
        ⟨some "completed", some 100, some fp, fsz, none, some msg, some now⟩ s
    | (none, _) =>
      update_task ⟨some "failed", none, none, none, some msg, none, some now⟩ s

/-- One observable step of a task's life: the thread being started by
`start_download`, the worker's first update, hook events and side-file
appends while the runner executes, a public cancellation call, and the
worker's terminal classification. -/
inductive Ev where
  | thread_start
  | worker_begin
  | hook (p : ProgressPayload)
  | record_side_file (f : String)
  | cancel_call (now : Nat)
  | worker_end (fs : FileSys) (now : Nat) (o : RunOutcome)

/-- Step function on task states; guards encode when each event can occur. -/
def step (e : Ev) (s : TaskState) : TaskState :=
  match e with
  | .thread_start =>
    if s.thread_started then s else { s with thread_started := true }
  | .worker_begin =>
    if s.thread_started && !s.worker_begun then
      update_task ⟨some "downloading", some 0, none, none, none, none, none⟩
        { s with worker_begun := true }
    else s
  | .hook p =>
    if s.worker_begun && !s.worker_ended then progress_hook p s else s
  | .record_side_file f =>
    if s.worker_begun && !s.worker_ended then
      { s with downloaded_files := s.downloaded_files ++ [f] }
    else s
  | .cancel_call now => (cancel_download now s).1
  | .worker_end fs now o =>
    if s.worker_begun && !s.worker_ended then
      run_task_finish fs now o { s with worker_ended := true }
    else s

/-- A task record as `start_download` registers it, before its thread starts. -/
def init_task : TaskState :=
  { status := "pending"
    progress := 0
    file_path := none
    file_size := none
    error := none
    warning := none
    completed_at := none
    cancel_event := false
    thread_started := false
    worker_begun := false
    worker_ended := false
    downloaded_files := [] }

/-- Run a list of events from a given state. -/
def run_events (tr : List Ev) (s : TaskState) : TaskState :=
  tr.foldl (fun acc e => step e acc) s

/-- Run a list of events from the freshly created task. -/
def exec_trace (tr : List Ev) : TaskState :=
  run_events tr init_task

/-- Progress as `to_status_dict` reports it to a poller: clamped to `[0, 100]`. -/
def reported_progress (s : TaskState) : ℚ :=
  if s.progress < 0 then 0
  else if 100 < s.progress then 100
  else s.progress

/-- The closed set of supported media kinds. -/
def SUPPORTED_MEDIA_TYPES : List String := ["video", "audio"]

/-- The manager's configured per-kind defaults. -/
structure ManagerDefaults where
  default_video_quality : String
  default_audio_format : String
  default_audio_quality : String
deriving DecidableEq

/-- The immutable part of a freshly created task record. -/
structure NewTask where
  task_id : String
  url : String
  media_type : String
  quality : String
  audio_format : Option String
  status : String
deriving DecidableEq

/-- The caller-visible part of the `start_download` response (`task_id` is
`None` exactly on validation failure; a missing `error` key is `none`). -/
structure StartResponse where
  task_id : Option String
  status : String
  error : Option String
deriving DecidableEq

/-- `AsyncDownloadManager.start_download`: media-kind validation, per-kind
quality and format defaulting, and registration of a single pending task.
The fresh `uuid4` hex identifier is passed in as `tid`.  Returns the
synchronous response together with the task stored in the registry
(`none` when validation fails and nothing is stored). -/
def start_download (cfg : ManagerDefaults) (tid url quality media_type : String)
    (audio_format : Option String) : StartResponse × Option NewTask :=
  let normalized_media_type :=
    py_lower (py_strip (if media_type = "" then "video" else media_type))
  if !SUPPORTED_MEDIA_TYPES.contains normalized_media_type then
    ({ task_id := none
       status := "failed"
       error := some "Unsupported media_type. Expected one of: video, audio" },
      none)
  else
    let normalized_quality := py_strip quality
    let normalized_audio_format := py_lower (py_strip (audio_format.getD ""))
    let normalized_quality :=
      if normalized_media_type = "video" then
        if normalized_quality = "" then cfg.default_video_quality
        else normalized_quality
      else
        if normalized_quality = "" || !py_isdigit normalized_quality then
          cfg.default_audio_quality
        else normalized_quality
    let normalized_audio_format :=
      if normalized_media_type = "video" then normalized_audio_format
      else
        if normalized_audio_format = "" then cfg.default_audio_format
        else normalized_audio_format
    ({ task_id := some tid, status := "started", error := none },
      some
        { task_id := tid
          url := url
          media_type := normalized_media_type
          quality := normalized_quality
          audio_format :=
            if normalized_audio_format = "" then none
            else some normalized_audio_format
          status := "pending" })

/-- The slice of a stored task record that `list_downloads` and
`check_downloads` read. -/
structure StoredTask where
  task_id : String
  status : String
  started_at : Nat
deriving DecidableEq

/-- Newest-first order on stored tasks (`sort(key=started_at, reverse=True)`). -/
def newest_first (a b : StoredTask) : Prop :=
  b.started_at ≤ a.started_at

instance : DecidableRel newest_first :=
  fun a b => Nat.decLe b.started_at a.started_at

instance : IsTotal StoredTask newest_first :=
  ⟨fun a b => Nat.le_total b.started_at a.started_at⟩

instance : IsTrans StoredTask newest_first :=
  ⟨fun _ _ _ hab hbc => Nat.le_trans hbc hab⟩

/-- `AsyncDownloadManager.list_downloads`: normalize the filter, keep only
matching statuses when the normalized filter is truthy, and sort
newest-first (Python's stable sort, modelled by insertion sort). -/
def list_downloads (tasks : List StoredTask) (status_filter : Option String) :
    List StoredTask :=
  let normalized_filter :=
    match status_filter with
    | some f => some (py_lower (py_strip f))
    | none => none
  let tasks :=
    match normalized_filter with
    | some f => if f = "" then tasks else tasks.filter (fun t => t.status == f)
    | none => tasks
  List.insertionSort newest_first tasks

/-- One entry of the `completed` list of `check_downloads` (the status-dict
fields the claim is about). -/
structure CheckEntry where
  task_id : String
  status : String
deriving DecidableEq

/-- Response of `check_downloads`. -/
structure CheckResult where
  completed : List CheckEntry
  pending : List String
  all_done : Bool
  error : Option String
deriving DecidableEq

/-- Accumulating loop body of `check_downloads`. -/
def check_step (reg : List (String × StoredTask))
    (acc : List CheckEntry × List String) (tid : String) :
    List CheckEntry × List String :=
  match reg.lookup tid with
  | none => (acc.1 ++ [{ task_id := tid, status := "not_found" }], acc.2)
  | some t =>
    if terminal_statuses.contains t.status then
      (acc.1 ++ [{ task_id := t.task_id, status := t.status }], acc.2)
    else (acc.1, acc.2 ++ [tid])

/-- `AsyncDownloadManager.check_downloads`: partition the requested ids into
finished entries (terminal or unknown) and still-pending ids. -/
def check_downloads (reg : List (String × StoredTask)) (task_ids : List String) :
    CheckResult :=
  if task_ids.isEmpty then
    { completed := []
      pending := []
      all_done := true
      error := some "No task IDs provided." }
  else
    let acc := task_ids.foldl (check_step reg) ([], [])
    { completed := acc.1
      pending := acc.2
      all_done := acc.2.isEmpty
      error := none }

/-- The attribute names defined on `AsyncDownloadManager` in
`async_downloads.py` (its methods, in source order). -/
def async_download_manager_attrs : List String :=
  ["__init__", "start_download", "get_download_status", "list_downloads",
   "cancel_download", "_run_task", "_execute_download", "_build_progress_hook",
   "_is_cancel_requested", "_update_task", "_best_effort_primary_file",
   "_choose_primary_file", "_best_effort_cleanup_part_files",
   "_download_with_ytdlp", "check_downloads"]

/-- Result of a Python attribute access followed by a call: `ok` when the
attribute exists, otherwise the `AttributeError` the interpreter raises. -/
inductive PyCallResult where
  | ok
  | attribute_error (attr : String)
deriving DecidableEq

/-- Model of an attribute lookup on the manager instance. -/
def manager_getattr (name : String) : PyCallResult :=
  if async_download_manager_attrs.contains name then .ok
  else .attribute_error name

/-- Body of the `wait_for_downloads` tool in `server.py`: it immediately
evaluates `async_downloads.wait_for_downloads`, so the attribute lookup
happens before any argument is used. -/
def server_wait_for_downloads (task_ids : List String) (mode : String)
    (timeout_seconds : ℚ) : PyCallResult :=
  manager_getattr "wait_for_downloads"

/-! ### Helper lemmas about the selection heuristic -/

theorem max_by_size_eq_none {fs : FileSys} :
    ∀ {l : List String}, max_by_size fs l = none ↔ l = [] := by
  intro l
  cases l with
  | nil => simp [max_by_size]
  | cons f rest =>
    unfold max_by_size
    rcases max_by_size fs rest with _ | m0
    · simp
    · dsimp only
      by_cases hlt : stat_size fs f < stat_size fs m0
      · simp [if_pos hlt]
      · simp [if_neg hlt]

theorem max_by_size_mem {fs : FileSys} :
    ∀ {l : List String} {m : String}, max_by_size fs l = some m → m ∈ l := by
  intro l
  induction l with
  | nil => intro m h; simp [max_by_size] at h
  | cons f rest ih =>
    intro m h
    unfold max_by_size at h
    rcases hr : max_by_size fs rest with _ | m0 <;> rw [hr] at h <;> dsimp only at h
    · simp at h
      simp [h]
    · by_cases hlt : stat_size fs f < stat_size fs m0
      · rw [if_pos hlt] at h
        simp at h
        exact List.mem_cons_of_mem f (ih (hr.trans (by rw [h])))
      · rw [if_neg hlt] at h
        simp at h
        simp [h]

theorem max_by_size_le {fs : FileSys} :
    ∀ {l : List String} {m : String}, max_by_size fs l = some m →
      ∀ x ∈ l, stat_size fs x ≤ stat_size fs m := by
  intro l
  induction l with
  | nil => intro m _ x hx; simp at hx
  | cons f rest ih =>
    intro m h x hx
    unfold max_by_size at h
    rcases hr : max_by_size fs rest with _ | m0 <;> rw [hr] at h <;> dsimp only at h
    · simp at h
      subst h
      rcases List.mem_cons.mp hx with rfl | hx2
      · exact le_refl _
      · exact absurd hx2 (by simp [max_by_size_eq_none.mp hr])
    · rcases List.mem_cons.mp hx with rfl | hx2
      · by_cases hlt : stat_size fs x < stat_size fs m0
        · rw [if_pos hlt] at h
          simp at h
          subst h
          exact le_of_lt hlt
        · rw [if_neg hlt] at h
          simp at h
          subst h
          exact le_refl _
      · have hle0 : stat_size fs x ≤ stat_size fs m0 := ih hr x hx2
        by_cases hlt : stat_size fs f < stat_size fs m0
        · rw [if_pos hlt] at h
          simp at h
          subst h
          exact hle0
        · rw [if_neg hlt] at h
          simp at h
          subst h
          exact le_trans hle0 (le_of_not_lt hlt)

theorem max_by_size_ne_nil {fs : FileSys} {l : List String} (h : l ≠ []) :
    ∃ m, max_by_size fs l = some m := by
  rcases hm : max_by_size fs l with _ | m0
  · exact absurd (max_by_size_eq_none.mp hm) h
  · exact ⟨m0, rfl⟩

theorem choose_primary_file_mem {fs : FileSys} {files : List String} {p : String}
    (h : choose_primary_file fs files = some p) :
    p ∈ files.filter (is_salvage_candidate fs) := by
  unfold choose_primary_file at h
  by_cases hc : (files.filter (is_salvage_candidate fs)).isEmpty
  · rw [if_pos hc] at h
    simp at h
  · rw [if_neg hc] at h
    dsimp only at h
    rcases hm : max_by_size fs
        (List.filter (fun f => py_lower (py_suffix f) == ".mp4")
          (List.filter (is_salvage_candidate fs) files)) with _ | q <;>
      rw [hm] at h <;> dsimp only at h
    · exact max_by_size_mem h
    · simp at h
      subst h
      exact List.mem_of_mem_filter (max_by_size_mem hm)

theorem choose_primary_file_exists {fs : FileSys} {files : List String} {p : String}
    (h : choose_primary_file fs files = some p) :
    (fs.lookup p).isSome = true := by
  have hmem := choose_primary_file_mem h
  have hcand : is_salvage_candidate fs p := List.of_mem_filter hmem
  unfold is_salvage_candidate at hcand
  have := (Bool.and_eq_true _ _).mp hcand
  unfold path_exists at this
  exact this.2

/-! ### Helper lemmas about progress extraction -/

theorem extract_progress_percent_bounds {p : ProgressPayload} {q : ℚ}
    (h : extract_progress_percent p = some q) : 0 ≤ q ∧ q ≤ 100 := by
  unfold extract_progress_percent at h
  split at h
  · exact absurd h (by simp)
  · dsimp only at h
    split at h
    · split at h
      · exact absurd h (by simp)
      · split at h
        · simp at h
          subst h
          norm_num
        · split at h
          · simp at h
            subst h
            norm_num
          · rename_i hneg hbig
            simp at h
            subst h
            exact ⟨le_of_not_lt hneg, le_of_not_lt hbig⟩
    · exact absurd h (by simp)

/-! ### Claim theorems -/

/-- C1: the spec's public blocking-wait operation (`wait_for_downloads`) is
called by the server tool for every input, but `AsyncDownloadManager`
defines no such method, so every invocation raises an `AttributeError`
instead of returning a `{completed, pending, timed_out}` result. -/
theorem C1_wait_for_downloads_always_raises :
    ∀ (task_ids : List String) (mode : String) (timeout_seconds : ℚ),
      server_wait_for_downloads task_ids mode timeout_seconds =
        PyCallResult.attribute_error "wait_for_downloads" := by
  intro task_ids mode timeout_seconds
  rfl

/-- C2: a concrete interleaving in which a stored terminal state is exited:
cancelling a registered task before its worker thread starts stores the
terminal status `canceled`, and the worker's unconditional first update then
overwrites it with the non-terminal `downloading`. -/
theorem C2_terminal_state_overwritten :
    (exec_trace [Ev.cancel_call 5]).status = "canceled" ∧
    terminal_statuses.contains (exec_trace [Ev.cancel_call 5]).status = true ∧
    (exec_trace [Ev.cancel_call 5, Ev.thread_start, Ev.worker_begin]).status =
      "downloading" ∧
    terminal_statuses.contains
      (exec_trace [Ev.cancel_call 5, Ev.thread_start, Ev.worker_begin]).status =
      false := by
  refine ⟨rfl, rfl, rfl, rfl⟩

/-- C5: cancelling a task whose stored status is already terminal is an
idempotent no-op: the response echoes the existing terminal status with no
error, and the task record is returned entirely unchanged. -/
theorem C5_cancel_terminal_idempotent (now : Nat) (s : TaskState)
    (h : terminal_statuses.contains s.status = true) :
    cancel_download now s = (s, { status := s.status, error := none }) := by
  unfold cancel_download
  rw [if_pos h]

def c5_state : TaskState :=
  { init_task with
      status := "failed"
      error := some "boom"
      completed_at := some 3
      thread_started := true
      worker_begun := true
      worker_ended := true }

theorem C5_cancel_terminal_idempotent_witness :
    terminal_statuses.contains c5_state.status = true ∧
    cancel_download 9 c5_state = (c5_state, { status := c5_state.status, error := none }) :=
  ⟨by decide, C5_cancel_terminal_idempotent 9 c5_state (by decide)⟩

/-- C3: when the runner raises a non-cancellation fault from the running
state, a salvageable side file makes the task end `completed` with the
result path and its on-disk byte size populated, the fault text in
`warning` and `error` left unset; with no salvageable side file the task
ends `failed` with `error` set to the fault text and no result populated. -/
theorem C3_fault_salvage_policy (s : TaskState) (fs : FileSys) (msg : String)
    (now : Nat) (hb : s.worker_begun = true) (he : s.worker_ended = false)
    (herr : s.error = none) (hfp : s.file_path = none) (hfs : s.file_size = none) :
    (∀ p, choose_primary_file fs s.downloaded_files = some p →
      (step (Ev.worker_end fs now (RunOutcome.failure msg)) s).status = "completed" ∧
      (step (Ev.worker_end fs now (RunOutcome.failure msg)) s).file_path = some p ∧
      (step (Ev.worker_end fs now (RunOutcome.failure msg)) s).file_size = fs.lookup p ∧
      ((step (Ev.worker_end fs now (RunOutcome.failure msg)) s).file_size).isSome = true ∧
      (step (Ev.worker_end fs now (RunOutcome.failure msg)) s).warning = some msg ∧
      (step (Ev.worker_end fs now (RunOutcome.failure msg)) s).error = none) ∧
    (choose_primary_file fs s.downloaded_files = none →
      (step (Ev.worker_end fs now (RunOutcome.failure msg)) s).status = "failed" ∧
      (step (Ev.worker_end fs now (RunOutcome.failure msg)) s).error = some msg ∧
      (step (Ev.worker_end fs now (RunOutcome.failure msg)) s).file_path = none ∧
      (step (Ev.worker_end fs now (RunOutcome.failure msg)) s).file_size = none) := by
  constructor
  · intro p hp
    obtain ⟨n, hn⟩ := Option.isSome_iff_exists.mp (choose_primary_file_exists hp)
    simp only [step, hb, he, Bool.not_false, Bool.and_self, if_true,
      run_task_finish, best_effort_primary_file, hp, hn]
    simp [update_task, herr, hn]
  · intro hp
    simp only [step, hb, he, Bool.not_false, Bool.and_self, if_true,
      run_task_finish, best_effort_primary_file, hp]
    simp [update_task, hfp, hfs]

def c3_state : TaskState :=
  { status := "downloading"
    progress := 25
    file_path := none
    file_size := none
    error := none
    warning := none
    completed_at := none
    cancel_event := false
    thread_started := true
    worker_begun := true
    worker_ended := false
    downloaded_files := ["partial.mp4"] }

theorem C3_fault_salvage_policy_witness :
    ((step (Ev.worker_end [("partial.mp4", 900)] 9 (RunOutcome.failure "RetrievalFault"))
        c3_state).status = "completed" ∧
      (step (Ev.worker_end [("partial.mp4", 900)] 9 (RunOutcome.failure "RetrievalFault"))
        c3_state).file_path = some "partial.mp4" ∧
      (step (Ev.worker_end [("partial.mp4", 900)] 9 (RunOutcome.failure "RetrievalFault"))
        c3_state).file_size = some 900 ∧
      (step (Ev.worker_end [("partial.mp4", 900)] 9 (RunOutcome.failure "RetrievalFault"))
        c3_state).warning = some "RetrievalFault" ∧
      (step (Ev.worker_end [("partial.mp4", 900)] 9 (RunOutcome.failure "RetrievalFault"))
        c3_state).error = none) ∧
    ((step (Ev.worker_end [] 9 (RunOutcome.failure "RetrievalFault"))
        c3_state).status = "failed" ∧
      (step (Ev.worker_end [] 9 (RunOutcome.failure "RetrievalFault"))
        c3_state).error = some "RetrievalFault" ∧
      (step (Ev.worker_end [] 9 (RunOutcome.failure "RetrievalFault"))
        c3_state).file_path = none) := by
  have h1 := (C3_fault_salvage_policy c3_state [("partial.mp4", 900)] "RetrievalFault" 9
    (by decide) (by decide) (by decide) (by decide) (by decide)).1 "partial.mp4" (by decide)
  have h2 := (C3_fault_salvage_policy c3_state [] "RetrievalFault" 9
    (by decide) (by decide) (by decide) (by decide) (by decide)).2 (by decide)
  exact ⟨⟨h1.1, h1.2.1, by rw [h1.2.2.1]; rfl, h1.2.2.2.2.1, h1.2.2.2.2.2⟩,
    h2.1, h2.2.1, h2.2.2.1⟩

/-- C7 counterexample: the selection heuristic ignores the job's media kind.
For an audio job (preferred audio container per the manager's own defaults:
mp3) with a large complete `a.mp3` and a small `b.mp4`, the source picks
`b.mp4`, while the kind-dependent selection the claim describes picks
`a.mp3`. -/
theorem C7_kind_ignored_counterexample :
    choose_primary_file [("a.mp3", 5000), ("b.mp4", 900)] ["a.mp3", "b.mp4"] =
      some "b.mp4" ∧
    spec_choose_primary [("a.mp3", 5000), ("b.mp4", 900)] ".mp3" ["a.mp3", "b.mp4"] =
      some "a.mp3" ∧
    ("b.mp4" : String) ≠ "a.mp3" := by
  refine ⟨rfl, rfl, by decide⟩

/-- C7 (amended): the heuristic drops paths with a `.part` suffix or not on
disk; among the remainder it always prefers the fixed `.mp4` container
(case-insensitive), regardless of the job's media kind, returning the
largest such file by byte size; otherwise the largest remaining candidate;
and `none` when no candidate remains. -/
theorem C7_choose_primary_file_selection (fs : FileSys) (files : List String) :
    (List.filter (is_salvage_candidate fs) files = [] →
      choose_primary_file fs files = none) ∧
    (∀ p, choose_primary_file fs files = some p →
      p ∈ files ∧ py_suffix p ≠ ".part" ∧ path_exists fs p = true) ∧
    (List.filter (fun f => py_lower (py_suffix f) == ".mp4")
        (List.filter (is_salvage_candidate fs) files) ≠ [] →
      ∃ p, choose_primary_file fs files = some p ∧
        p ∈ List.filter (fun f => py_lower (py_suffix f) == ".mp4")
            (List.filter (is_salvage_candidate fs) files) ∧
        ∀ q ∈ List.filter (fun f => py_lower (py_suffix f) == ".mp4")
            (List.filter (is_salvage_candidate fs) files),
          stat_size fs q ≤ stat_size fs p) ∧
    (List.filter (is_salvage_candidate fs) files ≠ [] →
      List.filter (fun f => py_lower (py_suffix f) == ".mp4")
        (List.filter (is_salvage_candidate fs) files) = [] →
      ∃ p, choose_primary_file fs files = some p ∧
        p ∈ List.filter (is_salvage_candidate fs) files ∧
        ∀ q ∈ List.filter (is_salvage_candidate fs) files,
          stat_size fs q ≤ stat_size fs p) := by
  refine ⟨?_, ?_, ?_, ?_⟩
  · intro h
    unfold choose_primary_file
    rw [if_pos (by simp [h])]
  · intro p hp
    have hmem := choose_primary_file_mem hp
    have hcand : is_salvage_candidate fs p := List.of_mem_filter hmem
    have hin : p ∈ files := List.mem_of_mem_filter hmem
    unfold is_salvage_candidate at hcand
    have hand := (Bool.and_eq_true _ _).mp hcand
    refine ⟨hin, ?_, hand.2⟩
    exact of_decide_eq_true hand.1
  · intro h
    obtain ⟨m, hm⟩ := @max_by_size_ne_nil fs _ h
    have hcne : List.filter (is_salvage_candidate fs) files ≠ [] := by
      intro hc
      exact h (by rw [hc]; rfl)
    refine ⟨m, ?_, max_by_size_mem hm, max_by_size_le hm⟩
    unfold choose_primary_file
    rw [if_neg (by simp [hcne])]
    dsimp only
    rw [hm]
  · intro hc hmp4
    obtain ⟨m, hm⟩ := @max_by_size_ne_nil fs _ hc
    refine ⟨m, ?_, max_by_size_mem hm, max_by_size_le hm⟩
    unfold choose_primary_file
    rw [if_neg (by simp [hc])]
    dsimp only
    rw [hmp4]
    dsimp only [max_by_size]
    exact hm

theorem C7_choose_primary_file_selection_witness :
    choose_primary_file [("b.mp4", 900), ("c.webm", 5000)] ["a.part", "b.mp4", "c.webm"] =
      some "b.mp4" ∧
    choose_primary_file [("x.webm", 100), ("y.webm", 9000)] ["x.webm", "y.webm"] =
      some "y.webm" ∧
    choose_primary_file [] ["gone.mp4"] = none := by
  obtain ⟨p1, hp1, hmem1, _⟩ :=
    (C7_choose_primary_file_selection [("b.mp4", 900), ("c.webm", 5000)]
      ["a.part", "b.mp4", "c.webm"]).2.2.1 (by decide)
  obtain ⟨p2, hp2, hmem2, hle2⟩ :=
    (C7_choose_primary_file_selection [("x.webm", 100), ("y.webm", 9000)]
      ["x.webm", "y.webm"]).2.2.2 (by decide) (by decide)
  refine ⟨?_, ?_, ?_⟩
  · rw [hp1]
    have hf : List.filter (fun f => py_lower (py_suffix f) == ".mp4")
        (List.filter (is_salvage_candidate [("b.mp4", 900), ("c.webm", 5000)])
          ["a.part", "b.mp4", "c.webm"]) = ["b.mp4"] := by decide
    rw [hf] at hmem1
    simp at hmem1
    rw [hmem1]
  · rw [hp2]
    have h9 := hle2 "y.webm" (by decide)
    have hf : List.filter (is_salvage_candidate [("x.webm", 100), ("y.webm", 9000)])
        ["x.webm", "y.webm"] = ["x.webm", "y.webm"] := by decide
    rw [hf] at hmem2
    simp at hmem2
    rcases hmem2 with h | h
    · subst h
      exact absurd h9 (by decide)
    · rw [h]
  · exact (C7_choose_primary_file_selection [] ["gone.mp4"]).1 (by decide)

/-- C8: `_update_task` is frame-preserving: a field is written exactly when
the corresponding argument is supplied (not `None`), and every field whose
argument is absent retains exactly its prior value. -/
theorem C8_update_task_frame (u : TaskUpdate) (t : TaskState) :
    (u.status = none → (update_task u t).status = t.status) ∧
    (∀ v, u.status = some v → (update_task u t).status = v) ∧
    (u.progress = none → (update_task u t).progress = t.progress) ∧
    (∀ v, u.progress = some v → (update_task u t).progress = v) ∧
    (u.file_path = none → (update_task u t).file_path = t.file_path) ∧
    (∀ v, u.file_path = some v → (update_task u t).file_path = some v) ∧
    (u.file_size = none → (update_task u t).file_size = t.file_size) ∧
    (∀ v, u.file_size = some v → (update_task u t).file_size = some v) ∧
    (u.error = none → (update_task u t).error = t.error) ∧
    (∀ v, u.error = some v → (update_task u t).error = some v) ∧
    (u.warning = none → (update_task u t).warning = t.warning) ∧
    (∀ v, u.warning = some v → (update_task u t).warning = some v) ∧
    (u.completed_at = none → (update_task u t).completed_at = t.completed_at) ∧
    (∀ v, u.completed_at = some v → (update_task u t).completed_at = some v) := by
  obtain ⟨us, up, ufp, ufs, ue, uw, uc⟩ := u
  cases us <;> cases up <;> cases ufp <;> cases ufs <;> cases ue <;> cases uw <;>
    cases uc <;> simp [update_task]

def c8_update : TaskUpdate :=
  ⟨some "downloading", none, some "f.mp4", none, none, none, none⟩

theorem C8_update_task_frame_witness :
    (update_task c8_update init_task).status = "downloading" ∧
    (update_task c8_update init_task).progress = init_task.progress ∧
    (update_task c8_update init_task).file_path = some "f.mp4" ∧
    (update_task c8_update init_task).error = init_task.error :=
  ⟨(C8_update_task_frame c8_update init_task).2.1 "downloading" rfl,
    (C8_update_task_frame c8_update init_task).2.2.1 rfl,
    (C8_update_task_frame c8_update init_task).2.2.2.2.2.1 "f.mp4" rfl,
    (C8_update_task_frame c8_update init_task).2.2.2.2.2.2.2.2.1 rfl⟩

/-- C6 counterexample: a media kind that is empty — hence, after trimming
and lowercasing, outside the closed set `{video, audio}` — is not rejected:
the source first defaults a falsy kind to `"video"`, so the call succeeds
and stores a task. -/
theorem C6_empty_kind_counterexample :
    SUPPORTED_MEDIA_TYPES.contains (py_lower (py_strip "")) = false ∧
    (start_download ⟨"best", "mp3", "192"⟩ "t1" "http://u" "best" "" none).1.status =
      "started" ∧
    (start_download ⟨"best", "mp3", "192"⟩ "t1" "http://u" "best" "" none).1.task_id =
      some "t1" ∧
    (start_download ⟨"best", "mp3", "192"⟩ "t1" "http://u" "best" "" none).2 ≠ none := by
  decide

/-- C6 (amended): an empty media kind is first defaulted to `video`; a
nonempty kind whose trimmed, lowercased form is outside `{video, audio}`
yields a synchronous `failed` response with no task id and no stored task;
an audio kind with empty-or-non-numeric quality and no format gets the
configured audio defaults and is stored as a single `pending` task. -/
theorem C6_start_download_validation (cfg : ManagerDefaults)
    (tid url quality media_type : String) (audio_format : Option String) :
    (media_type ≠ "" →
      SUPPORTED_MEDIA_TYPES.contains (py_lower (py_strip media_type)) = false →
      (start_download cfg tid url quality media_type audio_format).1.task_id = none ∧
      (start_download cfg tid url quality media_type audio_format).1.status = "failed" ∧
      (start_download cfg tid url quality media_type audio_format).2 = none) ∧
    (py_lower (py_strip media_type) = "audio" →
      (py_strip quality = "" ∨ py_isdigit (py_strip quality) = false) →
      py_lower (py_strip (audio_format.getD "")) = "" →
      cfg.default_audio_format ≠ "" →
      ∃ t, (start_download cfg tid url quality media_type audio_format).2 = some t ∧
        t.status = "pending" ∧
        t.quality = cfg.default_audio_quality ∧
        t.audio_format = some cfg.default_audio_format ∧
        t.media_type = "audio" ∧
        (start_download cfg tid url quality media_type audio_format).1.status =
          "started" ∧
        (start_download cfg tid url quality media_type audio_format).1.task_id =
          some tid) := by
  constructor
  · intro hne hns
    have hns2 : py_lower (py_strip media_type) ∉ SUPPORTED_MEDIA_TYPES := by
      simpa using hns
    simp [start_download, if_neg hne, hns2]
  · intro haud hq haf hdaf
    have hne : media_type ≠ "" := by
      intro he
      rw [he] at haud
      exact absurd haud (by decide)
    have hsup : py_lower (py_strip media_type) ∈ SUPPORTED_MEDIA_TYPES := by
      rw [haud]; decide
    have hvid : py_lower (py_strip media_type) ≠ "video" := by
      rw [haud]; decide
    have m1 : ("audio" : String) ∈ SUPPORTED_MEDIA_TYPES := by decide
    have m2 : ("audio" : String) ≠ "video" := by decide
    have hres : start_download cfg tid url quality media_type audio_format =
        ({ task_id := some tid, status := "started", error := none },
          some ⟨tid, url, "audio", cfg.default_audio_quality,
            some cfg.default_audio_format, "pending"⟩) := by
      rcases hq with hq | hq <;>
        simp [start_download, if_neg hne, haud, haf, hq, m1, if_neg m2, if_neg hdaf]
    rw [hres]
    exact ⟨_, rfl, rfl, rfl, rfl, rfl, rfl, rfl⟩

theorem C6_start_download_validation_witness :
    ((start_download ⟨"best", "mp3", "192"⟩ "t2" "u" "x" "gif" none).1.task_id = none ∧
      (start_download ⟨"best", "mp3", "192"⟩ "t2" "u" "x" "gif" none).1.status =
        "failed" ∧
      (start_download ⟨"best", "mp3", "192"⟩ "t2" "u" "x" "gif" none).2 = none) ∧
    ∃ t, (start_download ⟨"best", "mp3", "192"⟩ "t3" "u" "" "audio" none).2 = some t ∧
      t.status = "pending" ∧
      t.quality = "192" ∧
      t.audio_format = some "mp3" := by
  refine ⟨(C6_start_download_validation ⟨"best", "mp3", "192"⟩ "t2" "u" "x" "gif"
    none).1 (by decide) (by decide), ?_⟩
  obtain ⟨t, h1, h2, h3, h4, _⟩ :=
    (C6_start_download_validation ⟨"best", "mp3", "192"⟩ "t3" "u" "" "audio" none).2
      (by decide) (Or.inl (by decide)) (by decide) (by decide)
  exact ⟨t, h1, h2, h3, h4⟩

/-- C9 counterexample: the empty string is a filter string, no stored record
has a status equal to it (even case-insensitively), yet `list_downloads`
with that filter returns every record instead of none: a falsy normalized
filter is treated as no filter. -/
theorem C9_empty_filter_counterexample :
    list_downloads [⟨"t1", "pending", 5⟩] (some "") = [⟨"t1", "pending", 5⟩] ∧
    py_lower "pending" ≠ py_lower (py_strip "") := by
  decide

/-- C9 (amended): a filter whose trimmed, lowercased form is empty is
treated as no filter and all records are returned; otherwise exactly the
records whose stored status equals the normalized filter are returned —
which, for the statuses the manager stores (all lowercase), is a
case-insensitive match against the trimmed filter — always ordered by
creation time, most recent first. -/
theorem C9_list_downloads_filter_sort (tasks : List StoredTask) (f : String) :
    (List.Perm (list_downloads tasks none) tasks ∧
      List.Sorted newest_first (list_downloads tasks none)) ∧
    (py_lower (py_strip f) = "" →
      List.Perm (list_downloads tasks (some f)) tasks ∧
      List.Sorted newest_first (list_downloads tasks (some f))) ∧
    (py_lower (py_strip f) ≠ "" →
      List.Perm (list_downloads tasks (some f))
        (tasks.filter (fun t => t.status == py_lower (py_strip f))) ∧
      List.Sorted newest_first (list_downloads tasks (some f))) ∧
    (∀ s ∈ stored_status_strings,
      (s == py_lower (py_strip f)) = (py_lower s == py_lower (py_strip f))) := by
  refine ⟨⟨?_, ?_⟩, ?_, ?_, ?_⟩
  · simpa [list_downloads] using List.perm_insertionSort newest_first tasks
  · simpa [list_downloads] using List.sorted_insertionSort newest_first tasks
  · intro h
    constructor
    · simpa [list_downloads, h] using List.perm_insertionSort newest_first tasks
    · simpa [list_downloads, h] using List.sorted_insertionSort newest_first tasks
  · intro h
    constructor
    · simpa [list_downloads, h] using
        List.perm_insertionSort newest_first
          (tasks.filter (fun t => t.status == py_lower (py_strip f)))
    · simpa [list_downloads, h] using
        List.sorted_insertionSort newest_first
          (tasks.filter (fun t => t.status == py_lower (py_strip f)))
  · intro s hs
    simp only [stored_status_strings, List.mem_cons, List.not_mem_nil, or_false] at hs
    rcases hs with rfl | rfl | rfl | rfl | rfl
    · rw [show py_lower "pending" = "pending" from by decide]
    · rw [show py_lower "downloading" = "downloading" from by decide]
    · rw [show py_lower "completed" = "completed" from by decide]
    · rw [show py_lower "failed" = "failed" from by decide]
    · rw [show py_lower "canceled" = "canceled" from by decide]

def c9_tasks : List StoredTask :=
  [⟨"t1", "pending", 5⟩, ⟨"t2", "completed", 9⟩, ⟨"t3", "pending", 7⟩]

theorem C9_list_downloads_filter_sort_witness :
    List.Perm (list_downloads c9_tasks (some " PENDING "))
      [⟨"t1", "pending", 5⟩, ⟨"t3", "pending", 7⟩] ∧
    List.Sorted newest_first (list_downloads c9_tasks (some " PENDING ")) ∧
    ("pending" == py_lower (py_strip " PENDING ")) =
      (py_lower "pending" == py_lower (py_strip " PENDING ")) := by
  have h := (C9_list_downloads_filter_sort c9_tasks " PENDING ").2.2.1 (by decide)
  have hci := (C9_list_downloads_filter_sort c9_tasks " PENDING ").2.2.2 "pending"
    (by decide)
  have hf : c9_tasks.filter (fun t => t.status == py_lower (py_strip " PENDING ")) =
      [⟨"t1", "pending", 5⟩, ⟨"t3", "pending", 7⟩] := by decide
  rw [hf] at h
  exact ⟨h.1, h.2, hci⟩

/-- The destination `check_downloads` assigns to one requested id: a
finished entry when the id is unknown (`not_found`) or its task is
terminal, `none` when its task is non-terminal. -/
def finished_entry (reg : List (String × StoredTask)) (tid : String) :
    Option CheckEntry :=
  match reg.lookup tid with
  | none => some { task_id := tid, status := "not_found" }
  | some t =>
    if terminal_statuses.contains t.status then
      some { task_id := t.task_id, status := t.status }
    else none

/-- Whether a requested id refers to a stored, non-terminal task. -/
def is_pending_id (reg : List (String × StoredTask)) (tid : String) : Bool :=
  match reg.lookup tid with
  | some t => !terminal_statuses.contains t.status
  | none => false

theorem check_fold_spec (reg : List (String × StoredTask)) :
    ∀ (ids : List String) (acc : List CheckEntry × List String),
      ids.foldl (check_step reg) acc =
        (acc.1 ++ ids.filterMap (finished_entry reg),
          acc.2 ++ ids.filter (is_pending_id reg)) := by
  intro ids
  induction ids with
  | nil => intro acc; simp
  | cons tid rest ih =>
    intro acc
    rw [List.foldl_cons, ih]
    rcases hl : reg.lookup tid with _ | t
    · have hfe : finished_entry reg tid = some ⟨tid, "not_found"⟩ := by
        rw [finished_entry, hl]
      have hip : is_pending_id reg tid = false := by
        rw [is_pending_id, hl]
      simp [check_step, hl, List.filterMap_cons, List.filter_cons, hfe, hip]
    · by_cases ht : t.status ∈ terminal_statuses
      · have hfe : finished_entry reg tid = some ⟨t.task_id, t.status⟩ := by
          rw [finished_entry, hl]
          simp [ht]
        have hip : is_pending_id reg tid = false := by
          rw [is_pending_id, hl]
          simp [ht]
        simp [check_step, hl, ht, List.filterMap_cons, List.filter_cons, hfe, hip]
      · have hfe : finished_entry reg tid = none := by
          rw [finished_entry, hl]
          simp [ht]
        have hip : is_pending_id reg tid = true := by
          rw [is_pending_id, hl]
          simp [ht]
        simp [check_step, hl, ht, List.filterMap_cons, List.filter_cons, hfe, hip]

/-- C10: `check_downloads` partitions every requested id: unknown ids and
ids of terminal tasks land (in request order) in the `completed` list —
unknown ones as `not_found` entries — while ids of non-terminal tasks land
in `pending`; `all_done` is true exactly when no requested id refers to a
non-terminal task; an empty request returns `all_done` true with an error
message. -/
theorem C10_check_downloads_partition (reg : List (String × StoredTask))
    (ids : List String) :
    (ids = [] →
      check_downloads reg ids =
        { completed := [], pending := [], all_done := true,
          error := some "No task IDs provided." }) ∧
    (ids ≠ [] →
      (check_downloads reg ids).completed = ids.filterMap (finished_entry reg) ∧
      (check_downloads reg ids).pending = ids.filter (is_pending_id reg) ∧
      (check_downloads reg ids).error = none ∧
      ((check_downloads reg ids).all_done = true ↔
        ∀ tid ∈ ids, is_pending_id reg tid = false)) := by
  constructor
  · intro h
    subst h
    rfl
  · intro h
    have hne : ids.isEmpty = false := by
      cases ids with
      | nil => exact absurd rfl h
      | cons a l => rfl
    unfold check_downloads
    rw [hne]
    rw [check_fold_spec reg ids ([], [])]
    simp [List.isEmpty_iff, List.filter_eq_nil_iff]

def c10_reg : List (String × StoredTask) :=
  [("a", ⟨"a", "completed", 1⟩), ("b", ⟨"b", "downloading", 2⟩)]

theorem C10_check_downloads_partition_witness :
    check_downloads c10_reg [] =
      { completed := [], pending := [], all_done := true,
        error := some "No task IDs provided." } ∧
    (check_downloads c10_reg ["a", "b", "zz"]).completed =
      [⟨"a", "completed"⟩, ⟨"zz", "not_found"⟩] ∧
    (check_downloads c10_reg ["a", "b", "zz"]).pending = ["b"] ∧
    (check_downloads c10_reg ["a", "b", "zz"]).all_done = false ∧
    (check_downloads c10_reg ["a", "zz"]).all_done = true := by
  have h0 := (C10_check_downloads_partition c10_reg []).1 rfl
  have h1 := (C10_check_downloads_partition c10_reg ["a", "b", "zz"]).2 (by decide)
  have h2 := (C10_check_downloads_partition c10_reg ["a", "zz"]).2 (by decide)
  refine ⟨h0, ?_, ?_, ?_, h2.2.2.2.mpr (by decide)⟩
  · rw [h1.1]
    decide
  · rw [h1.2.1]
    decide
  · rw [Bool.eq_false_iff]
    intro hd
    have := h1.2.2.2.mp hd "b" (by decide)
    exact absurd this (by decide)

/-- The inductive invariant behind C4: progress stays in `[0, 100]`, the
value 100 is stored only with status `completed`, `completed` is written
only by the worker's terminal update, and the worker bookkeeping is
consistent. -/
def ProgressInv (s : TaskState) : Prop :=
  0 ≤ s.progress ∧ s.progress ≤ 100 ∧
  (s.progress = 100 → s.status = "completed") ∧
  (s.status = "completed" → s.worker_ended = true) ∧
  (s.worker_ended = true → s.worker_begun = true)

theorem step_thread_start (s : TaskState) :
    step Ev.thread_start s =
      if s.thread_started = true then s else { s with thread_started := true } := rfl

theorem step_worker_begin (s : TaskState) :
    step Ev.worker_begin s =
      if (s.thread_started && !s.worker_begun) = true then
        update_task ⟨some "downloading", some 0, none, none, none, none, none⟩
          { s with worker_begun := true }
      else s := rfl

theorem step_hook (p : ProgressPayload) (s : TaskState) :
    step (Ev.hook p) s =
      if (s.worker_begun && !s.worker_ended) = true then progress_hook p s else s := rfl

theorem step_record_side_file (f : String) (s : TaskState) :
    step (Ev.record_side_file f) s =
      if (s.worker_begun && !s.worker_ended) = true then
        { s with downloaded_files := s.downloaded_files ++ [f] }
      else s := rfl

theorem step_cancel_call (now : Nat) (s : TaskState) :
    step (Ev.cancel_call now) s = (cancel_download now s).1 := rfl

theorem step_worker_end (fs : FileSys) (now : Nat) (o : RunOutcome) (s : TaskState) :
    step (Ev.worker_end fs now o) s =
      if (s.worker_begun && !s.worker_ended) = true then
        run_task_finish fs now o { s with worker_ended := true }
      else s := rfl

theorem progress_inv_init : ProgressInv init_task := by
  refine ⟨le_refl 0, by norm_num [init_task], ?_, ?_, ?_⟩ <;> intro h <;>
    simp [init_task] at h

theorem progress_inv_step (e : Ev) (s : TaskState) (h : ProgressInv s) :
    ProgressInv (step e s) := by
  obtain ⟨h0, h100, hp100, hcomp, hwe⟩ := h
  cases e with
  | thread_start =>
    by_cases hts : s.thread_started = true
    · rw [step_thread_start, if_pos hts]
      exact ⟨h0, h100, hp100, hcomp, hwe⟩
    · rw [step_thread_start, if_neg hts]
      exact ⟨h0, h100, hp100, hcomp, hwe⟩
  | worker_begin =>
    by_cases hg : (s.thread_started && !s.worker_begun) = true
    · rw [step_worker_begin, if_pos hg]
      refine ⟨le_refl 0, by show (0 : ℚ) ≤ 100; norm_num, ?_, ?_, ?_⟩
      · intro hpr
        have hpr2 : (0 : ℚ) = 100 := hpr
        exact absurd hpr2 (by norm_num)
      · intro hst
        have hst2 : "downloading" = "completed" := hst
        exact absurd hst2 (by decide)
      · intro _
        rfl
    · rw [step_worker_begin, if_neg hg]
      exact ⟨h0, h100, hp100, hcomp, hwe⟩
  | hook p =>
    by_cases hg : (s.worker_begun && !s.worker_ended) = true
    · rw [step_hook, if_pos hg]
      unfold progress_hook
      by_cases hc : s.cancel_event = true
      · rw [if_pos hc]
        exact ⟨h0, h100, hp100, hcomp, hwe⟩
      · rw [if_neg hc]
        rcases hq : extract_progress_percent p with _ | q <;> dsimp only
        · by_cases hf : p.status = "finished"
          · rw [if_pos hf]
            refine ⟨by show (0 : ℚ) ≤ 99; norm_num,
              by show (99 : ℚ) ≤ 100; norm_num, ?_, hcomp, hwe⟩
            intro hpr
            have hpr2 : (99 : ℚ) = 100 := hpr
            exact absurd hpr2 (by norm_num)
          · rw [if_neg hf]
            exact ⟨h0, h100, hp100, hcomp, hwe⟩
        · obtain ⟨hq0, hq100⟩ := extract_progress_percent_bounds hq
          refine ⟨?_, ?_, ?_, hcomp, hwe⟩
          · show (0 : ℚ) ≤ min 99 q
            exact le_min (by norm_num) hq0
          · show min (99 : ℚ) q ≤ 100
            exact le_trans (min_le_left _ _) (by norm_num)
          · intro hmin
            have hmin2 : min (99 : ℚ) q = 100 := hmin
            have hle : min (99 : ℚ) q ≤ 99 := min_le_left _ _
            rw [hmin2] at hle
            exact absurd hle (by norm_num)
    · rw [step_hook, if_neg hg]
      exact ⟨h0, h100, hp100, hcomp, hwe⟩
  | record_side_file f =>
    by_cases hg : (s.worker_begun && !s.worker_ended) = true
    · rw [step_record_side_file, if_pos hg]
      exact ⟨h0, h100, hp100, hcomp, hwe⟩
    · rw [step_record_side_file, if_neg hg]
      exact ⟨h0, h100, hp100, hcomp, hwe⟩
  | cancel_call now =>
    rw [step_cancel_call]
    unfold cancel_download
    by_cases ht : terminal_statuses.contains s.status = true
    · rw [if_pos ht]
      exact ⟨h0, h100, hp100, hcomp, hwe⟩
    · rw [if_neg ht]
      dsimp only
      by_cases ha : thread_alive { s with cancel_event := true } = true
      · rw [if_pos ha]
        exact ⟨h0, h100, hp100, hcomp, hwe⟩
      · rw [if_neg ha]
        refine ⟨h0, h100, ?_, ?_, hwe⟩
        · intro hpr
          exfalso
          apply ht
          have hst : s.status = "completed" := hp100 hpr
          rw [hst]
          decide
        · intro hst
          have hst2 : "canceled" = "completed" := hst
          exact absurd hst2 (by decide)
  | worker_end fs now o =>
    by_cases hg : (s.worker_begun && !s.worker_ended) = true
    · have hbg : s.worker_begun = true := ((Bool.and_eq_true _ _).mp hg).1
      have hnend : s.worker_ended = false := by
        have := ((Bool.and_eq_true _ _).mp hg).2
        simpa using this
      have hnotcomp : s.status ≠ "completed" := by
        intro hcs
        rw [hcomp hcs] at hnend
        exact absurd hnend (by decide)
      have hnot100 : s.progress ≠ 100 := fun hp => hnotcomp (hp100 hp)
      rw [step_worker_end, if_pos hg]
      unfold run_task_finish
      cases o with
      | cancelled msg =>
        refine ⟨h0, h100, ?_, ?_, fun _ => hbg⟩
        · intro hpr
          exact absurd hpr hnot100
        · intro hst
          have hst2 : "canceled" = "completed" := hst
          exact absurd hst2 (by decide)
      | ok path size =>
        cases path <;> cases size <;>
          exact ⟨by show (0 : ℚ) ≤ 100; norm_num, le_refl 100,
            fun _ => rfl, fun _ => rfl, fun _ => hbg⟩
      | failure msg =>
        dsimp only
        rcases hcp : choose_primary_file fs s.downloaded_files with _ | fpath
        · simp only [best_effort_primary_file, hcp]
          refine ⟨h0, h100, ?_, ?_, fun _ => hbg⟩
          · intro hpr
            exact absurd hpr hnot100
          · intro hst
            have hst2 : "failed" = "completed" := hst
            exact absurd hst2 (by decide)
        · rcases hlk : List.lookup fpath fs with _ | n <;>
            simp only [best_effort_primary_file, hcp, hlk] <;>
            exact ⟨by show (0 : ℚ) ≤ 100; norm_num, le_refl 100,
              fun _ => rfl, fun _ => rfl, fun _ => hbg⟩
    · rw [step_worker_end, if_neg hg]
      exact ⟨h0, h100, hp100, hcomp, hwe⟩

theorem run_events_inv :
    ∀ (tr : List Ev) (s : TaskState), ProgressInv s → ProgressInv (run_events tr s) := by
  intro tr
  induction tr with
  | nil => intro s h; exact h
  | cons e rest ih =>
    intro s h
    have : run_events (e :: rest) s = run_events rest (step e s) := rfl
    rw [this]
    exact ih _ (progress_inv_step e s h)

theorem exec_trace_inv (tr : List Ev) : ProgressInv (exec_trace tr) :=
  run_events_inv tr init_task progress_inv_init

/-- C4: the progress a poller reads is clamped into `[0, 100]`; over every
interleaving of operations and worker steps the stored progress equals 100
only when the status is `completed` (100 is written solely by the terminal
completed update); an in-flight byte-progress event stores
`min 99 percent ≤ 99`, and a finished-artifact event stores 99. -/
theorem C4_progress_invariants :
    (∀ s : TaskState, 0 ≤ reported_progress s ∧ reported_progress s ≤ 100) ∧
    (∀ tr : List Ev, (exec_trace tr).progress = 100 →
      (exec_trace tr).status = "completed") ∧
    (∀ (p : ProgressPayload) (s : TaskState) (q : ℚ),
      s.cancel_event = false → extract_progress_percent p = some q →
      (progress_hook p s).progress = min 99 q ∧ min 99 q ≤ 99 ∧ 0 ≤ min 99 q) ∧
    (∀ (p : ProgressPayload) (s : TaskState),
      s.cancel_event = false → extract_progress_percent p = none →
      p.status = "finished" → (progress_hook p s).progress = 99) := by
  refine ⟨?_, ?_, ?_, ?_⟩
  · intro s
    unfold reported_progress
    by_cases hneg : s.progress < 0
    · rw [if_pos hneg]
      norm_num
    · rw [if_neg hneg]
      by_cases hbig : 100 < s.progress
      · rw [if_pos hbig]
        norm_num
      · rw [if_neg hbig]
        exact ⟨le_of_not_lt hneg, le_of_not_lt hbig⟩
  · intro tr
    exact (exec_trace_inv tr).2.2.1
  · intro p s q hc hq
    obtain ⟨hq0, _⟩ := extract_progress_percent_bounds hq
    refine ⟨?_, min_le_left _ _, le_min (by norm_num) hq0⟩
    simp [progress_hook, hc, hq, update_task]
  · intro p s hc hqn hf
    simp [progress_hook, hc, hqn, hf, update_task]

def c4_trace : List Ev :=
  [Ev.thread_start, Ev.worker_begin,
    Ev.worker_end [] 7 (RunOutcome.ok (some "a.mp4") (some 5))]

def c4_payload : ProgressPayload := ⟨"downloading", some 50, some 200, none⟩

theorem C4_progress_invariants_witness :
    (0 ≤ reported_progress init_task ∧ reported_progress init_task ≤ 100) ∧
    (exec_trace c4_trace).status = "completed" ∧
    (progress_hook c4_payload init_task).progress = min 99 25 ∧
    (progress_hook ⟨"finished", none, none, none⟩ init_task).progress = 99 := by
  refine ⟨C4_progress_invariants.1 init_task, ?_, ?_, ?_⟩
  · exact C4_progress_invariants.2.1 c4_trace (by decide)
  · exact (C4_progress_invariants.2.2.1 c4_payload init_task 25 rfl
      (by norm_num [extract_progress_percent, c4_payload])).1
  · exact C4_progress_invariants.2.2.2 ⟨"finished", none, none, none⟩ init_task rfl
      (by decide) rfl

end UMM
